import Mathlib

/-!
Verification of the WooCommerce SDK request-execution core.

Each definition below is a shallow embedding of the corresponding
TypeScript function of the repository (file and symbol named in its
doc comment).  JavaScript strings are modelled as Lean `String`
(operating on the underlying `List Char`), JS numbers appearing in the
claims are integers and are modelled as `Int`/`Nat`, `undefined`/`null`
are modelled with `Option`, and a function that can `throw` is modelled
as returning `Except` or an error value.
-/

/-! ## Generic string helpers (models of the JS string primitives used) -/

/-- Model of `needle.isPrefixOf hay` specialised to characters:
`true` iff `needle` is a literal prefix of `hay`. -/
def listStartsWith : List Char → List Char → Bool
  | [], _ => true
  | _ :: _, [] => false
  | p :: ps, c :: cs => p = c && listStartsWith ps cs

/-- Model of JS `hay.startsWith(pre)`. -/
def strStartsWith (hay pre : String) : Bool :=
  listStartsWith pre.data hay.data

/-- Substring occurrence on character lists: `true` iff `needle` occurs
contiguously inside `hay`. -/
def listContainsSub (needle : List Char) : List Char → Bool
  | [] => listStartsWith needle []
  | c :: cs => listStartsWith needle (c :: cs) || listContainsSub needle cs

/-- Model of JS `hay.includes(needle)`. -/
def strContains (hay needle : String) : Bool :=
  listContainsSub needle.data hay.data

/-- Model of JS `String.prototype.toLowerCase` restricted to ASCII (the
substrings the source compares against are all ASCII). -/
def lowerChar (c : Char) : Char :=
  if 65 ≤ c.toNat ∧ c.toNat ≤ 90 then Char.ofNat (c.toNat + 32) else c

/-- Lower-case an entire string, character by character. -/
def lowerStr (s : String) : String :=
  String.mk (s.data.map lowerChar)

/-- Uppercase hexadecimal digit for a value below 16 (as produced by
`encodeURIComponent` percent-escapes). -/
def hexDigitChar (n : Nat) : Char :=
  if n < 10 then Char.ofNat (48 + n) else Char.ofNat (55 + n)

/-- UTF-8 byte sequence of a Unicode scalar value, as
`encodeURIComponent` encodes non-ASCII characters. -/
def utf8Bytes (c : Char) : List Nat :=
  let n := c.toNat
  if n < 128 then [n]
  else if n < 2048 then [192 + n / 64, 128 + n % 64]
  else if n < 65536 then [224 + n / 4096, 128 + (n / 64) % 64, 128 + n % 64]
  else [240 + n / 262144, 128 + (n / 4096) % 64, 128 + (n / 64) % 64, 128 + n % 64]

/-- Characters that `encodeURIComponent` leaves unescaped:
`A-Z a-z 0-9 - _ . ! ~ * ' ( )`. -/
def isUriUnreserved (c : Char) : Bool :=
  (65 ≤ c.toNat ∧ c.toNat ≤ 90) || (97 ≤ c.toNat ∧ c.toNat ≤ 122) ||
  (48 ≤ c.toNat ∧ c.toNat ≤ 57) ||
  c = '-' || c = '_' || c = '.' || c = '!' || c = '~' || c = '*' ||
  c.toNat = 39 || c = '(' || c = ')'

/-- Percent-escape of a single character, per `encodeURIComponent`. -/
def encChar (c : Char) : List Char :=
  if isUriUnreserved c then [c]
  else ((utf8Bytes c).map (fun b => ['%', hexDigitChar (b / 16), hexDigitChar (b % 16)])).flatten

/-- Model of JS `encodeURIComponent`. -/
def encodeURIComponent (s : String) : String :=
  String.mk ((s.data.map encChar).flatten)

/-- Model of JS whitespace accepted by `parseInt` before the number. -/
def isJsSpace (c : Char) : Bool :=
  c = ' ' || c = '\t' || c = '\n' || c = '\r' || c.toNat = 11 || c.toNat = 12

/-- Numeric value of a decimal digit list (most significant first). -/
def digitsToNat : List Char → Nat
  | [] => 0
  | c :: cs => (c.toNat - 48) * 10 ^ cs.length + digitsToNat cs

/-- Model of JS `parseInt(s, 10)`: skip leading whitespace, optional
sign, then the longest run of decimal digits; `none` models `NaN`. -/
def jsParseInt (s : String) : Option Int :=
  let cs := s.data.dropWhile isJsSpace
  let signed : Int × List Char :=
    match cs with
    | '-' :: r => (-1, r)
    | '+' :: r => (1, r)
    | _ => (1, cs)
  let digits := signed.2.takeWhile (fun c => 48 ≤ c.toNat ∧ c.toNat ≤ 57)
  if digits.isEmpty then none else some (signed.1 * (digitsToNat digits : Int))

/-! ## URL Normalizer (`src/utils.ts`, `normalizeUrl`) -/

/-- Model of the JS regexp replace `url.replace(/\/$/, '')`: drop one
trailing slash if present. -/
def stripTrailingSlash (s : String) : String :=
  match s.data.getLast? with
  | some c => if c = '/' then String.mk s.data.dropLast else s
  | none => s

/-- Embedding of `normalizeUrl` from `src/utils.ts`: empty input is
returned as is (`if (!url) return ''`); otherwise one trailing slash is
stripped and `https://` is prepended when neither `http://` nor
`https://` is already a prefix. -/
def normalizeUrl (url : String) : String :=
  if url = "" then ""
  else
    let normalized := stripTrailingSlash url
    if !(strStartsWith normalized "http://") && !(strStartsWith normalized "https://") then
      "https://" ++ normalized
    else normalized

/-- Transcription of the spec sentence for the URL Normalizer (strip one
trailing slash, then prepend the protocol when absent), used to compare
the code against the spec's words. -/
def specNormalizeUrl (url : String) : String :=
  let stripped := stripTrailingSlash url
  if !(strStartsWith stripped "http://") && !(strStartsWith stripped "https://") then
    "https://" ++ stripped
  else stripped

/-! ## Query Encoder (`src/utils.ts`, `buildQueryString`) -/

/-- JavaScript values that can appear in a query-parameter mapping. -/
inductive JsValue where
  | undef
  | nullV
  | boolV (b : Bool)
  | num (n : Int)
  | str (s : String)
  | arr (items : List JsValue)
  | obj (fields : List (String × JsValue))
deriving Repr

/-- Model of `Array.prototype.join(sep)` / string interspersion. -/
def joinSep (sep : String) : List String → String
  | [] => ""
  | [x] => x
  | x :: y :: xs => x ++ sep ++ joinSep sep (y :: xs)

mutual

/-- Model of the JS abstract `String(value)` conversion for the values
above (integers print in decimal, arrays join their elements with
commas, plain objects print as `[object Object]`). -/
def jsToString : JsValue → String
  | .undef => "undefined"
  | .nullV => "null"
  | .boolV b => if b then "true" else "false"
  | .num n => toString n
  | .str s => s
  | .arr items => joinSep "," (arrElemStrs items)
  | .obj _ => "[object Object]"

/-- Element strings of `Array.prototype.toString`: `null` and
`undefined` elements print as the empty string. -/
def arrElemStrs : List JsValue → List String
  | [] => []
  | .undef :: vs => "" :: arrElemStrs vs
  | .nullV :: vs => "" :: arrElemStrs vs
  | v :: vs => jsToString v :: arrElemStrs vs

end

/-- JSON string-literal escape of one character (as `JSON.stringify`
escapes string values). -/
def jsonEscChar (c : Char) : List Char :=
  if c = '"' then ['\\', '"']
  else if c = '\\' then ['\\', '\\']
  else if c = '\n' then ['\\', 'n']
  else if c = '\r' then ['\\', 'r']
  else if c = '\t' then ['\\', 't']
  else if c.toNat = 8 then ['\\', 'b']
  else if c.toNat = 12 then ['\\', 'f']
  else if c.toNat < 32 then
    ['\\', 'u', '0', '0', hexDigitChar (c.toNat / 16), hexDigitChar (c.toNat % 16)]
  else [c]

/-- Quoted JSON string literal for `s`. -/
def jsonQuote (s : String) : String :=
  "\"" ++ String.mk ((s.data.map jsonEscChar).flatten) ++ "\""

mutual

/-- Model of `JSON.stringify`; `none` models the JS `undefined` result
(for an `undefined` input). -/
def jsonStringify : JsValue → Option String
  | .undef => none
  | .nullV => some "null"
  | .boolV b => some (if b then "true" else "false")
  | .num n => some (toString n)
  | .str s => some (jsonQuote s)
  | .arr items => some ("[" ++ joinSep "," (jsonArrElems items) ++ "]")
  | .obj fields => some ("\x7b" ++ joinSep "," (jsonObjFields fields) ++ "\x7d")

/-- Array elements under `JSON.stringify`: `undefined` becomes `null`. -/
def jsonArrElems : List JsValue → List String
  | [] => []
  | v :: vs => ((jsonStringify v).getD "null") :: jsonArrElems vs

/-- Object fields under `JSON.stringify`: fields whose value
stringifies to `undefined` are dropped. -/
def jsonObjFields : List (String × JsValue) → List String
  | [] => []
  | (k, v) :: fs =>
    match jsonStringify v with
    | some s => (jsonQuote k ++ ":" ++ s) :: jsonObjFields fs
    | none => jsonObjFields fs

end

/-- Query-string entries contributed by one `key`/`value` pair of
`buildQueryString` (`src/utils.ts` lines 16-33): `undefined`/`null`
values are skipped, arrays produce one `encodeURIComponent(key + "[]")
= encodeURIComponent(String(item))` entry per element in order, plain
objects are JSON-stringified, scalars are stringified. -/
def queryPartsFor (k : String) (v : JsValue) : List String :=
  match v with
  | .undef => []
  | .nullV => []
  | .arr items =>
    items.map (fun item =>
      encodeURIComponent (k ++ "[]") ++ "=" ++ encodeURIComponent (jsToString item))
  | .obj fields =>
    [encodeURIComponent k ++ "=" ++
      encodeURIComponent ((jsonStringify (.obj fields)).getD "undefined")]
  | v => [encodeURIComponent k ++ "=" ++ encodeURIComponent (jsToString v)]

/-- Embedding of `buildQueryString` from `src/utils.ts`: the collected
entries joined with `&`. -/
def buildQueryString (params : List (String × JsValue)) : String :=
  joinSep "&" ((params.map (fun kv => queryPartsFor kv.1 kv.2)).flatten)

/-! ## Error taxonomy (`src/errors.ts`) -/

/-- Nested `data` member of a WooCommerce error body; `base-client.ts`
reads `errorData?.data?.params` from it (the declaration file
`types/common.ts` is not in the sources; the fields are the ones the
client reads, per the spec's "nested error-details structure"). -/
structure ErrData where
  status : Option Nat
  params : Option (List (String × String))
deriving Repr

/-- Parsed JSON error body of a failed response
(`WooCommerceErrorResponse`): code, human message, nested data. -/
structure ErrBody where
  code : Option String
  message : Option String
  data : Option ErrData
deriving Repr

mutual

/-- The closed typed error taxonomy of `src/errors.ts`.  Each
constructor is one error class; fields are that class's constructor
parameters (status codes fixed by a class, such as 401 for
`WooCommerceAuthenticationError`, are recovered by `WcError.statusCode`
below). -/
inductive WcError where
  | base (message : String) (statusCode : Option Nat) (response : Option ErrBody)
  | authentication (message : String) (response : Option ErrBody)
  | authorization (message : String) (response : Option ErrBody)
  | notFound (message : String) (response : Option ErrBody)
  | validation (message : String) (statusCode : Nat) (response : Option ErrBody)
      (errors : Option (List (String × String)))
  | rateLimit (message : String) (response : Option ErrBody) (retryAfter : Option (Option Int))
  | network (message : String) (originalError : Option Thrown)
  | apiError (message : String) (statusCode : Nat) (response : Option ErrBody)

/-- A JavaScript throwable as seen by the `catch` block of
`BaseClient.request`: a taxonomy error, some other `Error` instance
(with its `name` and `message`), or a non-`Error` value. -/
inductive Thrown where
  | wcError (e : WcError)
  | jsError (name : String) (message : String)
  | nonError (value : String)

end

/-- The `name` property each error class assigns in its constructor. -/
def WcError.errName : WcError → String
  | .base .. => "WooCommerceError"
  | .authentication .. => "WooCommerceAuthenticationError"
  | .authorization .. => "WooCommerceAuthorizationError"
  | .notFound .. => "WooCommerceNotFoundError"
  | .validation .. => "WooCommerceValidationError"
  | .rateLimit .. => "WooCommerceRateLimitError"
  | .network .. => "WooCommerceNetworkError"
  | .apiError .. => "WooCommerceAPIError"

/-- The `message` property of a taxonomy error. -/
def WcError.message : WcError → String
  | .base m .. => m
  | .authentication m .. => m
  | .authorization m .. => m
  | .notFound m .. => m
  | .validation m .. => m
  | .rateLimit m .. => m
  | .network m .. => m
  | .apiError m .. => m

/-- The `statusCode` property of a taxonomy error (fixed per class
except for the base, validation and API kinds). -/
def WcError.statusCode : WcError → Option Nat
  | .base _ sc _ => sc
  | .authentication .. => some 401
  | .authorization .. => some 403
  | .notFound .. => some 404
  | .validation _ sc _ _ => some sc
  | .rateLimit .. => some 429
  | .network .. => none
  | .apiError _ sc _ => some sc

/-- Short kind discriminant, for stating which taxonomy member an
error is. -/
def WcError.kind : WcError → String
  | .base .. => "base"
  | .authentication .. => "authentication"
  | .authorization .. => "authorization"
  | .notFound .. => "notFound"
  | .validation .. => "validation"
  | .rateLimit .. => "rateLimit"
  | .network .. => "network"
  | .apiError .. => "server"

/-- JS `value instanceof Error`: taxonomy errors and other `Error`
instances are `Error`s, other throwables are not. -/
def Thrown.isError : Thrown → Bool
  | .nonError _ => false
  | _ => true

/-- The `name` property of a throwable (only consulted when it is an
`Error`). -/
def Thrown.errName : Thrown → String
  | .wcError e => e.errName
  | .jsError n _ => n
  | .nonError _ => ""

/-- The `message` property of a throwable (only consulted when it is
an `Error`). -/
def Thrown.errMessage : Thrown → String
  | .wcError e => e.message
  | .jsError _ m => m
  | .nonError _ => ""

/-! ## Catch-block classification (`src/client/base-client.ts` lines 124-149) -/

/-- Embedding of the `catch` block of `BaseClient.request`: an `Error`
named `AbortError` becomes a network error `"Request timeout"`; an
`Error` whose lower-cased message contains `fetch`, `network` or
`econnrefused` becomes a network error `"Network request failed"`
wrapping the original; otherwise a taxonomy error is re-thrown as is,
any other `Error` is wrapped into the base kind with its message, and a
non-`Error` throwable is wrapped with message
`"Unknown error occurred"`. -/
def classifyCaught (t : Thrown) : WcError :=
  let viaNetworkCheck : Option WcError :=
    if t.isError then
      if t.errName = "AbortError" then
        some (.network "Request timeout" (some t))
      else if strContains (lowerStr t.errMessage) "fetch"
          || strContains (lowerStr t.errMessage) "network"
          || strContains (lowerStr t.errMessage) "econnrefused" then
        some (.network "Network request failed" (some t))
      else none
    else none
  match viaNetworkCheck with
  | some e => e
  | none =>
    match t with
    | .wcError e => e
    | .jsError _ m => .base m none none
    | .nonError _ => .base "Unknown error occurred" none none

/-! ## Error Classifier (`src/client/base-client.ts`, `handleErrorResponse`) -/

/-- Message precedence of `handleErrorResponse`
(`errorData?.message || response.statusText || 'Request failed'`; JS
`||` also skips an empty string). -/
def respMessage (errorData : Option ErrBody) (statusText : String) : String :=
  let bodyMsg := (errorData.bind (fun d => d.message)).getD ""
  if bodyMsg ≠ "" then bodyMsg
  else if statusText ≠ "" then statusText
  else "Request failed"

/-- Embedding of `BaseClient.handleErrorResponse` (lines 157-202): the
status-code switch producing the typed error that the method throws. -/
def handleErrorResponse (status : Nat) (statusText : String)
    (errorData : Option ErrBody) (retryAfterHeader : Option String) : WcError :=
  let message := respMessage errorData statusText
  if status = 401 then .authentication message errorData
  else if status = 403 then .authorization message errorData
  else if status = 404 then .notFound message errorData
  else if status = 400 ∨ status = 422 then
    .validation message status errorData ((errorData.bind (fun d => d.data)).bind (fun d => d.params))
  else if status = 429 then
    .rateLimit message errorData
      (match retryAfterHeader with
       | some s => if s ≠ "" then some (jsParseInt s) else none
       | none => none)
  else if 500 ≤ status then .apiError message status errorData
  else .base message (some status) errorData

/-! ## Request Executor (`src/client/base-client.ts`, `BaseClient`) -/

/-- The `WooCommerceConfig` the client is constructed from; optional
fields model properties the caller may omit. -/
structure WooCommerceConfig where
  url : String
  consumerKey : String
  consumerSecret : String
  version : Option String
  timeout : Option Nat
  queryStringAuth : Option Bool

/-- `this.baseUrl = normalizeUrl(config.url)` in the constructor. -/
def baseUrlOf (c : WooCommerceConfig) : String :=
  normalizeUrl c.url

/-- `this.version = config.version || 'wc/v3'` (JS `||`, so an empty
string also falls back to the default). -/
def versionOf (c : WooCommerceConfig) : String :=
  match c.version with
  | some v => if v ≠ "" then v else "wc/v3"
  | none => "wc/v3"

/-- `this.timeout = config.timeout || 30000`. -/
def timeoutOf (c : WooCommerceConfig) : Nat :=
  match c.timeout with
  | some t => if t ≠ 0 then t else 30000
  | none => 30000

/-- `this.queryStringAuth = config.queryStringAuth ??
this.baseUrl.startsWith('https://')` (nullish coalescing: an explicit
`false` is kept). -/
def queryStringAuthOf (c : WooCommerceConfig) : Bool :=
  c.queryStringAuth.getD (strStartsWith (baseUrlOf c) "https://")

/-- The endpoint URL built at the top of `BaseClient.request`:
`${this.baseUrl}/wp-json/${this.version}/${endpoint}`. -/
def endpointUrl (c : WooCommerceConfig) (endpoint : String) : String :=
  baseUrlOf c ++ "/wp-json/" ++ versionOf c ++ "/" ++ endpoint

/-- The URL actually dispatched: in query-string-auth mode the
percent-encoded credentials are appended (lines 75-80); in OAuth-header
mode the URL is unchanged (the signature goes into the `Authorization`
header instead). -/
def requestUrl (c : WooCommerceConfig) (endpoint : String) : String :=
  let url := endpointUrl c endpoint
  if queryStringAuthOf c then
    let separator := if strContains url "?" then "&" else "?"
    url ++ separator ++ "consumer_key=" ++ encodeURIComponent c.consumerKey
        ++ "&consumer_secret=" ++ encodeURIComponent c.consumerSecret
  else url

/-- An HTTP response as `BaseClient.request` consumes it: status line,
the JSON-parse of the body as read by `handleErrorResponse`
(`none` when the body is not JSON), the `Retry-After` header, and the
JSON-parse of the body on the success path (`Except.error m` models a
rejected `response.json()` whose `SyntaxError` carries message `m`). -/
structure HttpResponse where
  status : Nat
  statusText : String
  errorData : Option ErrBody
  retryAfterHeader : Option String
  successJson : Except String JsValue

/-- `Response.ok`: status in the 200-299 range. -/
def HttpResponse.respOk (r : HttpResponse) : Bool :=
  200 ≤ r.status && r.status ≤ 299

/-- Result of awaiting `fetch`: either a response, or a throw.  The
hard timeout of `BaseClient.request` (an `AbortController` aborted by a
timer after the configured duration) is modelled by the dispatch
resolving to a thrown `Error` named `AbortError`, which is what
awaiting an aborted `fetch` produces. -/
inductive FetchOutcome where
  | response (r : HttpResponse)
  | thrown (t : Thrown)

/-- Embedding of `BaseClient.request` (lines 98-150) downstream of the
dispatch: a non-2xx response goes through `handleErrorResponse`, whose
throw is caught by the same `catch` block (`classifyCaught`); 204
returns an empty object; otherwise the body's JSON is returned, a parse
failure being caught like any other throw.  A thrown value from the
dispatch itself goes straight to the `catch` block. -/
def request (c : WooCommerceConfig) (endpoint : String) (method : String)
    (outcome : FetchOutcome) : Except WcError JsValue :=
  match outcome with
  | .thrown t => .error (classifyCaught t)
  | .response r =>
    if !r.respOk then
      .error (classifyCaught (.wcError
        (handleErrorResponse r.status r.statusText r.errorData r.retryAfterHeader)))
    else if r.status = 204 then .ok (.obj [])
    else
      match r.successJson with
      | .ok v => .ok v
      | .error m => .error (classifyCaught (.jsError "SyntaxError" m))

/-! ## Backoff Retrier (`src/utils.ts`, `retryWithBackoff`) -/

/-- The `catch` of `retryWithBackoff` stores
`error instanceof Error ? error : new Error(String(error))` as the last
error: an `Error` is kept as is, anything else is wrapped into a fresh
`Error`. -/
def Thrown.asError : Thrown → Thrown
  | .nonError v => .jsError "Error" v
  | t => t

/-- Loop body of `retryWithBackoff`, by recursion on the retries still
allowed.  `outcomes i` is the result of the `(i+1)`-th invocation of
the wrapped operation; the value returned is the overall result, the
number of invocations made, and the list of back-off delays slept (in
order).  A success returns immediately; a failure with retries left
sleeps `baseDelay * 2 ^ attempt` and retries; a failure with none left
re-raises the stored last error. -/
def retryAux (outcomes : Nat → Except Thrown α) (baseDelay : Nat) :
    Nat → Nat → Except Thrown α × Nat × List Nat
  | attempt, retriesLeft =>
    match outcomes attempt, retriesLeft with
    | .ok a, _ => (.ok a, 1, [])
    | .error e, 0 => (.error e.asError, 1, [])
    | .error _, k + 1 =>
      let rest := retryAux outcomes baseDelay (attempt + 1) k
      (rest.1, rest.2.1 + 1, baseDelay * 2 ^ attempt :: rest.2.2)

/-- Embedding of `retryWithBackoff(fn, maxRetries, baseDelay)` from
`src/utils.ts` lines 56-77 (the loop runs `attempt = 0 .. maxRetries`,
so `maxRetries + 1` attempts at most). -/
def retryWithBackoff (outcomes : Nat → Except Thrown α)
    (maxRetries : Nat) (baseDelay : Nat) : Except Thrown α × Nat × List Nat :=
  retryAux outcomes baseDelay 0 maxRetries

/-! ## Paginator (`ProductsClient.getAll` / `ProductsClient.listAll`) -/

/-- The `while (hasMore)` pagination loop shared by `getAll` and
`listAll`: fetch the current page, append its items, stop when the page
holds fewer items than `perPage`, else advance to the next page.  The
`fuel` argument bounds the unbounded source loop; `none` means the loop
would still be running after `fuel` fetches.  The returned number is
how many times the listing operation was invoked. -/
def fetchPages (fetch : Nat → List α) (perPage : Nat) :
    Nat → Nat → Option (List α × Nat)
  | _, 0 => none
  | page, fuel + 1 =>
    let items := fetch page
    if items.length < perPage then some (items, 1)
    else
      match fetchPages fetch perPage (page + 1) fuel with
      | none => none
      | some (rest, n) => some (items ++ rest, n + 1)

/-- Embedding of `ProductsClient.getAll(status, perPage)`: the server's
listing operation is abstracted as `server statusParam per_page page`,
and a status of `"any"` is passed as `undefined`.  Pages start at 1. -/
def ProductsClient.getAll (server : Option String → Nat → Nat → List α)
    (status : String) (perPage : Nat) (fuel : Nat) : Option (List α × Nat) :=
  fetchPages (fun page => server (if status = "any" then none else some status) perPage page)
    perPage 1 fuel

/-- Embedding of `ProductsClient.listAll(params)`: the page size is
`params?.per_page ?? 100` and the listing operation is abstracted as
`server per_page page` (the other filter parameters are passed through
unchanged and do not influence the loop). -/
def ProductsClient.listAll (server : Nat → Nat → List α)
    (perPageParam : Option Nat) (fuel : Nat) : Option (List α × Nat) :=
  let perPage := perPageParam.getD 100
  fetchPages (fun page => server perPage page) perPage 1 fuel

/-! ## Batch Chunker (`ProductsClient.batchUpdate`) -/

/-- One entry of the `updates` argument of `batchUpdate`. -/
structure StockUpdate where
  id : Int
  stock_quantity : Int
deriving Repr, DecidableEq

/-- One item of the wire payload `batchUpdate` submits:
`{ id, stock_quantity, manage_stock: true }`. -/
structure BatchWireItem where
  id : Int
  stock_quantity : Int
  manage_stock : Bool
deriving Repr, DecidableEq

/-- The per-item mapping of `batchUpdate` (lines 178-182). -/
def toWireItem (u : StockUpdate) : BatchWireItem :=
  { id := u.id, stock_quantity := u.stock_quantity, manage_stock := true }

/-- The chunking loop
`for (let i = 0; i < updates.length; i += BATCH_SIZE)` with
`BATCH_SIZE = 100`, phrased as recursion on a fuel that the wrapper
instantiates with the list's length (ample, as every step consumes at
least one element). -/
def chunksGo (fuel : Nat) (l : List α) : List (List α) :=
  match fuel, l with
  | _, [] => []
  | 0, _ :: _ => []
  | f + 1, x :: xs => (x :: xs).take 100 :: chunksGo f ((x :: xs).drop 100)

/-- Consecutive chunks of at most 100 elements, in order. -/
def chunks100 (l : List α) : List (List α) :=
  chunksGo l.length l

/-- Embedding of `ProductsClient.batchUpdate(updates)`: an empty input
returns `{ update: [] }` without submitting anything; otherwise the
input is chunked, each chunk is mapped to its wire payload and
submitted in order, and the `update` arrays of the responses are
concatenated in chunk order (a response without an `update` array
contributes nothing).  The result is the concatenated `update` list
paired with the ordered list of submitted payloads; the inter-chunk
sleep is a pure timing effect and leaves no trace in either. -/
def ProductsClient.batchUpdate (submit : List BatchWireItem → Option (List β))
    (updates : List StockUpdate) : List β × List (List BatchWireItem) :=
  if updates.isEmpty then ([], [])
  else
    let batches := chunks100 updates
    let payloads := batches.map (fun b => b.map toWireItem)
    ((payloads.map (fun w => (submit w).getD [])).flatten, payloads)

/-! ## Helper lemmas -/

theorem listStartsWith_eq_take {p l : List Char} (h : listStartsWith p l = true) :
    l.take p.length = p := by
  induction p generalizing l with
  | nil => simp
  | cons c cs ih =>
    cases l with
    | nil => simp [listStartsWith] at h
    | cons x xs =>
      simp only [listStartsWith, Bool.and_eq_true, decide_eq_true_eq] at h
      simp [h.1, ih h.2]

theorem not_http_and_https {l : List Char}
    (h1 : listStartsWith "http://".data l = true)
    (h2 : listStartsWith "https://".data l = true) : False := by
  have t1 := listStartsWith_eq_take h1
  have t2 := listStartsWith_eq_take h2
  have h7 : "http://".data.length = 7 := by decide
  have h8 : "https://".data.length = 8 := by decide
  rw [h7] at t1
  rw [h8] at t2
  have : l.take 7 = ("https://".data).take 7 := by
    rw [← t2, List.take_take]
    norm_num
  rw [t1] at this
  exact absurd this (by decide)

theorem listStartsWith_self_append (p r : List Char) :
    listStartsWith p (p ++ r) = true := by
  induction p with
  | nil => rfl
  | cons c cs ih => simp [listStartsWith, ih]

theorem normalizeUrl_scheme {u : String} (h : u ≠ "") :
    strStartsWith (normalizeUrl u) "http://" = true ∨
    strStartsWith (normalizeUrl u) "https://" = true := by
  rw [normalizeUrl, if_neg h]
  by_cases hp :
      (!(strStartsWith (stripTrailingSlash u) "http://")
        && !(strStartsWith (stripTrailingSlash u) "https://")) = true
  · rw [if_pos hp]
    right
    show listStartsWith "https://".data ("https://" ++ stripTrailingSlash u).data = true
    rw [String.data_append]
    exact listStartsWith_self_append _ _
  · rw [if_neg hp]
    cases hhttp : strStartsWith (stripTrailingSlash u) "http://" with
    | true => exact Or.inl rfl
    | false =>
      cases hhttps : strStartsWith (stripTrailingSlash u) "https://" with
      | true => exact Or.inr rfl
      | false => exact absurd (by simp [hhttp, hhttps]) hp

/-! ## Claim C9 — URL Normalizer -/

/-- Claim C9 counterexample: on the empty string the code returns `""`
while the claimed rule (strip one trailing slash, prepend `https://`
when no protocol prefix is present) yields `"https://"`, so the claim
is false at the input `""`. -/
theorem c9_counterexample :
    normalizeUrl "" ≠ specNormalizeUrl "" ∧
    normalizeUrl "" = "" ∧ specNormalizeUrl "" = "https://" := by
  refine ⟨?_, rfl, rfl⟩
  decide

/-- Claim C9 (amended): for every NONEMPTY base URL string,
`normalizeUrl` strips exactly one trailing `/` if present and prepends
`https://` when the string has neither an `http://` nor an `https://`
prefix (the function agrees with the spec's rule `specNormalizeUrl`);
already-normalized input is returned unchanged; the function is pure
and total.  The empty string is the one exception: it is returned
unchanged as `""` instead of becoming `"https://"`. -/
theorem c9_normalizeUrl :
    (∀ u : String, u ≠ "" → normalizeUrl u = specNormalizeUrl u) ∧
    normalizeUrl "example.com" = "https://example.com" ∧
    normalizeUrl "https://example.com/" = "https://example.com" ∧
    (∀ u : String, u ≠ "" → stripTrailingSlash u = u →
      (strStartsWith u "http://" = true ∨ strStartsWith u "https://" = true) →
      normalizeUrl u = u) ∧
    normalizeUrl "" = "" := by
  refine ⟨?_, by decide, by decide, ?_, rfl⟩
  · intro u h
    rw [normalizeUrl, specNormalizeUrl, if_neg h]
  · intro u h hs hp
    rw [normalizeUrl, if_neg h, hs]
    have hcond : (!(strStartsWith u "http://") && !(strStartsWith u "https://")) = false := by
      rcases hp with hp | hp <;> simp [hp]
    simp [hcond]

/-- Claim C9 witness: the amended theorem applied at the concrete
input `"example.com"`. -/
theorem c9_witness :
    normalizeUrl "example.com" = specNormalizeUrl "example.com" :=
  c9_normalizeUrl.1 "example.com" (by decide)

/-! ## Claim C6 — Query Encoder -/

/-- JS nullish test: `value === undefined || value === null`. -/
def isNullish : JsValue → Bool
  | .undef => true
  | .nullV => true
  | _ => false

theorem queryPartsFor_nullish (k : String) (v : JsValue) (h : isNullish v = true) :
    queryPartsFor k v = [] := by
  cases v <;> first | rfl | simp [isNullish] at h

theorem queryParts_filter_nullish (params : List (String × JsValue)) :
    (params.map (fun kv => queryPartsFor kv.1 kv.2)).flatten
      = ((params.filter (fun kv => !(isNullish kv.2))).map
          (fun kv => queryPartsFor kv.1 kv.2)).flatten := by
  induction params with
  | nil => rfl
  | cons kv rest ih =>
    cases hn : isNullish kv.2 with
    | true =>
      simp only [List.map_cons, List.flatten_cons, List.filter_cons, hn,
        Bool.not_true, queryPartsFor_nullish kv.1 kv.2 hn, List.nil_append]
      exact ih
    | false =>
      simp only [List.map_cons, List.flatten_cons, List.filter_cons, hn,
        Bool.not_false, if_true, List.map_cons, List.flatten_cons]
      rw [ih]

/-- Claim C6 counterexample: for the parameter `include = [5]` the
produced query string is `include%5B%5D=5` — the bracket characters are
themselves percent-encoded, so the output does NOT contain a literal
`include[]=` entry as the claim's `key[]=percent-encoded(item)` shape
asserts. -/
theorem c6_counterexample :
    buildQueryString [("include", JsValue.arr [.num 5])] = "include%5B%5D=5" ∧
    strContains (buildQueryString [("include", JsValue.arr [.num 5])]) "include[]=" = false := by
  have h : buildQueryString [("include", JsValue.arr [.num 5])] = "include%5B%5D=5" := by
    simp [buildQueryString, queryPartsFor, jsToString, joinSep]
    rfl
  refine ⟨h, ?_⟩
  rw [h]
  decide

/-- Claim C6 (amended): the query string contains no entry for any key
whose value is `undefined` or `null` (such pairs contribute nothing:
the output equals the output on the mapping with them filtered out); an
empty mapping yields the empty string; and for every array-valued
parameter the output contains exactly one
`percent-encoded(key ++ "[]") = percent-encoded(String(item))` entry
per array element, in the array's input order — i.e. the `[]` suffix
itself is percent-encoded (`key%5B%5D=` on the wire), not emitted as a
literal `key[]=`. -/
theorem c6_buildQueryString :
    (∀ params : List (String × JsValue),
      buildQueryString params
        = buildQueryString (params.filter (fun kv => !(isNullish kv.2)))) ∧
    buildQueryString [] = "" ∧
    (∀ (k : String) (items : List JsValue),
      queryPartsFor k (.arr items)
        = items.map (fun item =>
            encodeURIComponent (k ++ "[]") ++ "=" ++ encodeURIComponent (jsToString item))) ∧
    (∀ k : String, queryPartsFor k .undef = [] ∧ queryPartsFor k .nullV = []) := by
  refine ⟨?_, rfl, ?_, ?_⟩
  · intro params
    unfold buildQueryString
    rw [queryParts_filter_nullish]
  · intro k items
    rfl
  · intro k
    exact ⟨rfl, rfl⟩

/-! ## Claim C2 — Error Classifier -/

/-- Claim C2: `handleErrorResponse` maps every non-success status to
exactly one typed error — 401 to authentication, 403 to authorization,
404 to not-found, 400 and 422 to validation, 429 to rate-limit with the
retry-after field equal to the parsed `Retry-After` header when present
and numeric, ≥ 500 to the server kind, and any other status to the
base kind carrying the status code (429 always yields the rate-limit
kind regardless of the header: an absent or empty `Retry-After` leaves
the retry-after field undefined and a non-numeric one leaves it NaN,
while a numeric one gives the parsed integer); the message is the
body-supplied
message when present and non-empty, else the HTTP status text when
non-empty, else the fixed string `"Request failed"`; and through
`request` a non-2xx response always produces an error, never a normal
return. -/
theorem c2_handleErrorResponse (status : Nat) (statusText : String)
    (errorData : Option ErrBody) (hdr : Option String) :
    (status = 401 → handleErrorResponse status statusText errorData hdr
        = .authentication (respMessage errorData statusText) errorData) ∧
    (status = 403 → handleErrorResponse status statusText errorData hdr
        = .authorization (respMessage errorData statusText) errorData) ∧
    (status = 404 → handleErrorResponse status statusText errorData hdr
        = .notFound (respMessage errorData statusText) errorData) ∧
    (status = 400 ∨ status = 422 → handleErrorResponse status statusText errorData hdr
        = .validation (respMessage errorData statusText) status errorData
            ((errorData.bind (fun d => d.data)).bind (fun d => d.params))) ∧
    (status = 429 → ∃ ra : Option (Option Int),
        handleErrorResponse status statusText errorData hdr
          = .rateLimit (respMessage errorData statusText) errorData ra) ∧
    (status = 429 → ∀ (s : String) (n : Int), hdr = some s → jsParseInt s = some n →
        handleErrorResponse status statusText errorData hdr
          = .rateLimit (respMessage errorData statusText) errorData (some (some n))) ∧
    (status = 429 → hdr = none →
        handleErrorResponse status statusText errorData hdr
          = .rateLimit (respMessage errorData statusText) errorData none) ∧
    (status = 429 → hdr = some "" →
        handleErrorResponse status statusText errorData hdr
          = .rateLimit (respMessage errorData statusText) errorData none) ∧
    (status = 429 → ∀ s : String, hdr = some s → s ≠ "" → jsParseInt s = none →
        handleErrorResponse status statusText errorData hdr
          = .rateLimit (respMessage errorData statusText) errorData (some none)) ∧
    (500 ≤ status → handleErrorResponse status statusText errorData hdr
        = .apiError (respMessage errorData statusText) status errorData) ∧
    (status ≠ 400 → status ≠ 401 → status ≠ 403 → status ≠ 404 → status ≠ 422 →
      status ≠ 429 → status < 500 →
        handleErrorResponse status statusText errorData hdr
          = .base (respMessage errorData statusText) (some status) errorData) ∧
    (∀ (b : ErrBody) (m : String), errorData = some b → b.message = some m → m ≠ "" →
        respMessage errorData statusText = m) ∧
    ((errorData.bind (fun d => d.message)).getD "" = "" → statusText ≠ "" →
        respMessage errorData statusText = statusText) ∧
    ((errorData.bind (fun d => d.message)).getD "" = "" → statusText = "" →
        respMessage errorData statusText = "Request failed") ∧
    (∀ (c : WooCommerceConfig) (ep mth : String) (r : HttpResponse), r.respOk = false →
        request c ep mth (.response r) = .error (classifyCaught (.wcError
          (handleErrorResponse r.status r.statusText r.errorData r.retryAfterHeader)))) := by
  refine ⟨?_, ?_, ?_, ?_, ?_, ?_, ?_, ?_, ?_, ?_, ?_, ?_, ?_, ?_, ?_⟩
  · rintro rfl; rfl
  · rintro rfl; rfl
  · rintro rfl; rfl
  · rintro (rfl | rfl) <;> rfl
  · rintro rfl
    cases hdr with
    | none => exact ⟨none, rfl⟩
    | some s =>
      by_cases hse : s = ""
      · subst hse
        exact ⟨none, rfl⟩
      · exact ⟨some (jsParseInt s), by simp [handleErrorResponse, hse]⟩
  · rintro rfl s n hs hn
    subst hs
    have hse : s ≠ "" := by
      intro he
      subst he
      exact absurd hn (by simp [jsParseInt])
    simp [handleErrorResponse, hse, hn]
  · rintro rfl rfl
    rfl
  · rintro rfl rfl
    rfl
  · rintro rfl s rfl hse hn
    simp [handleErrorResponse, hse, hn]
  · intro h
    have h400 : status ≠ 400 := by omega
    have h401 : status ≠ 401 := by omega
    have h403 : status ≠ 403 := by omega
    have h404 : status ≠ 404 := by omega
    have h422 : status ≠ 422 := by omega
    have h429 : status ≠ 429 := by omega
    simp [handleErrorResponse, h400, h401, h403, h404, h422, h429, h]
  · intro h400 h401 h403 h404 h422 h429 hlt
    have h5 : ¬(500 ≤ status) := by omega
    simp [handleErrorResponse, h400, h401, h403, h404, h422, h429, h5]
  · rintro b m rfl hbm hne
    simp [respMessage, hbm, hne]
  · intro hb hst
    simp [respMessage, hb, hst]
  · intro hb hst
    simp [respMessage, hb, hst]
  · intro c ep mth r hok
    simp [request, hok]

/-- Claim C2 witness: a 429 response with body message
`"Too many requests"` and header `Retry-After: 60` yields the
rate-limit error with retry-after 60, by the theorem applied at that
input. -/
theorem c2_witness :
    handleErrorResponse 429 "Too Many Requests"
        (some ⟨some "rest_rate_limit", some "Too many requests", none⟩) (some "60")
      = .rateLimit "Too many requests"
          (some ⟨some "rest_rate_limit", some "Too many requests", none⟩) (some (some 60)) := by
  have h := (c2_handleErrorResponse 429 "Too Many Requests"
      (some ⟨some "rest_rate_limit", some "Too many requests", none⟩)
      (some "60")).2.2.2.2.2.1 rfl "60" 60 rfl (by decide)
  rw [h]
  rfl

/-! ## Claim C1 — error propagation through the Request Executor -/

/-- No taxonomy error carries the name `AbortError`. -/
theorem wcErrName_ne_abort (e : WcError) : e.errName ≠ "AbortError" := by
  cases e <;> simp [WcError.errName]

/-- Sample client configuration for concrete instances. -/
def cfgSample : WooCommerceConfig :=
  ⟨"https://example.com", "ck", "cs", none, none, none⟩

/-- Claim C1 counterexample: a taxonomy error whose message happens to
contain the substring `network` (here a not-found error with body
message `"Resource not found on network"`) is NOT propagated unchanged:
the catch block's network-substring test runs before the
`instanceof WooCommerceError` re-throw, so the caller receives a
network error wrapping it instead. -/
theorem c1_counterexample :
    request cfgSample "products" "GET"
        (.thrown (.wcError (.notFound "Resource not found on network" none)))
      ≠ .error (.notFound "Resource not found on network" none) := by
  intro h
  have hc : request cfgSample "products" "GET"
      (.thrown (.wcError (.notFound "Resource not found on network" none)))
      = .error (.network "Network request failed"
          (some (.wcError (.notFound "Resource not found on network" none)))) := by
    rfl
  rw [hc] at h
  injection h with h2
  exact WcError.noConfusion h2

/-- Claim C1 (amended): a thrown taxonomy error is propagated to the
caller unchanged PROVIDED its lower-cased message contains none of the
substrings `fetch`, `network`, `econnrefused`; an `Error` whose message
does contain one of them (taxonomy member or not) is re-wrapped into a
network error `"Network request failed"`, and an `Error` named
`AbortError` into a network error `"Request timeout"`; any other
`Error` outside the taxonomy is wrapped into the base kind with its
message preserved; a non-`Error` throwable is wrapped into the base
kind with the fixed message `"Unknown error occurred"`. -/
theorem c1_request (c : WooCommerceConfig) (ep m : String) (t : Thrown) :
    (∀ e : WcError, t = .wcError e →
      strContains (lowerStr e.message) "fetch" = false →
      strContains (lowerStr e.message) "network" = false →
      strContains (lowerStr e.message) "econnrefused" = false →
      request c ep m (.thrown t) = .error e) ∧
    (t.isError = true → t.errName ≠ "AbortError" →
      (strContains (lowerStr t.errMessage) "fetch"
        || strContains (lowerStr t.errMessage) "network"
        || strContains (lowerStr t.errMessage) "econnrefused") = true →
      request c ep m (.thrown t) = .error (.network "Network request failed" (some t))) ∧
    (∀ msg, t = .jsError "AbortError" msg →
      request c ep m (.thrown t) = .error (.network "Request timeout" (some t))) ∧
    (∀ name msg, t = .jsError name msg → name ≠ "AbortError" →
      strContains (lowerStr msg) "fetch" = false →
      strContains (lowerStr msg) "network" = false →
      strContains (lowerStr msg) "econnrefused" = false →
      request c ep m (.thrown t) = .error (.base msg none none)) ∧
    (∀ v, t = .nonError v →
      request c ep m (.thrown t) = .error (.base "Unknown error occurred" none none)) := by
  refine ⟨?_, ?_, ?_, ?_, ?_⟩
  · rintro e rfl h1 h2 h3
    simp [request, classifyCaught, Thrown.isError, Thrown.errName, Thrown.errMessage,
      wcErrName_ne_abort e, h1, h2, h3]
  · intro hE hN hsub
    simp [request, classifyCaught, hE, hN, hsub]
  · rintro msg rfl
    simp [request, classifyCaught, Thrown.isError, Thrown.errName]
  · rintro name msg rfl hN h1 h2 h3
    simp [request, classifyCaught, Thrown.isError, Thrown.errName, Thrown.errMessage,
      hN, h1, h2, h3]
  · rintro v rfl
    simp [request, classifyCaught, Thrown.isError]

/-- Claim C1 witness: a thrown not-found error with an ordinary message
passes through unchanged, by the amended theorem applied at that
input. -/
theorem c1_witness :
    request cfgSample "products" "GET"
        (.thrown (.wcError (.notFound "Resource missing" none)))
      = .error (.notFound "Resource missing" none) :=
  (c1_request cfgSample "products" "GET"
      (.wcError (.notFound "Resource missing" none))).1
    (.notFound "Resource missing" none) rfl (by decide) (by decide) (by decide)

/-! ## Claim C7 — timeout resolves to a network error -/

/-- Claim C7: for every configuration (hence every configured timeout)
and every endpoint and method, a request whose execution exceeds the
timeout — the timer aborts the dispatch, which then resolves to a
thrown `Error` named `AbortError` — produces a typed network-kind error
with the distinguishing message `"Request timeout"`, not a generic base
error, an unhandled rejection, or a hang. -/
theorem c7_timeout (c : WooCommerceConfig) (endpoint method msg : String) :
    request c endpoint method (.thrown (.jsError "AbortError" msg))
      = .error (.network "Request timeout" (some (.jsError "AbortError" msg))) := by
  simp [request, classifyCaught, Thrown.isError, Thrown.errName]

/-! ## Claim C8 — transport-auth mode defaulting -/

/-- Configuration with an empty URL and no explicit auth mode. -/
def cfgEmptyUrl : WooCommerceConfig := ⟨"", "ck", "cs", none, none, none⟩

/-- Configuration with a plaintext-transport URL and no explicit auth
mode. -/
def cfgHttp : WooCommerceConfig := ⟨"http://example.com", "ck", "cs", none, none, none⟩

/-- Claim C8 counterexample: with an empty base URL and no explicit
mode, the normalized base URL (`""`) has no `http://` scheme, yet the
executor still uses signed-header mode — so "signed-header exactly when
the scheme is plaintext http" fails at this configuration. -/
theorem c8_counterexample :
    cfgEmptyUrl.queryStringAuth = none ∧
    queryStringAuthOf cfgEmptyUrl = false ∧
    strStartsWith (baseUrlOf cfgEmptyUrl) "http://" = false := by
  refine ⟨rfl, ?_, ?_⟩ <;> decide

/-- Claim C8 (amended): when the transport-auth mode is not explicitly
set, query-string authentication is used exactly when the normalized
base URL starts with the encrypted `https://` scheme; for every
NONEMPTY configured URL, signed-header mode is used exactly when the
normalized URL starts with plaintext `http://` (the empty URL
normalizes to `""`, which also falls to signed-header mode); an
explicitly supplied mode always overrides the scheme-derived default;
and in query-string mode the request URL is the endpoint URL with
`consumer_key` and `consumer_secret` appended percent-encoded. -/
theorem c8_authMode (c : WooCommerceConfig) :
    (c.queryStringAuth = none →
      (queryStringAuthOf c = true ↔ strStartsWith (baseUrlOf c) "https://" = true)) ∧
    (c.queryStringAuth = none → c.url ≠ "" →
      (queryStringAuthOf c = false ↔ strStartsWith (baseUrlOf c) "http://" = true)) ∧
    (∀ b : Bool, c.queryStringAuth = some b → queryStringAuthOf c = b) ∧
    (queryStringAuthOf c = true → ∀ ep : String,
      requestUrl c ep = endpointUrl c ep
        ++ (if strContains (endpointUrl c ep) "?" then "&" else "?")
        ++ "consumer_key=" ++ encodeURIComponent c.consumerKey
        ++ "&consumer_secret=" ++ encodeURIComponent c.consumerSecret) := by
  refine ⟨?_, ?_, ?_, ?_⟩
  · intro h
    simp [queryStringAuthOf, h]
  · intro h hne
    have hscheme : strStartsWith (baseUrlOf c) "http://" = true ∨
        strStartsWith (baseUrlOf c) "https://" = true := normalizeUrl_scheme hne
    constructor
    · intro hf
      rcases hscheme with hs | hs
      · exact hs
      · rw [queryStringAuthOf, h, Option.getD] at hf
        rw [hs] at hf
        exact absurd hf (by decide)
    · intro hh
      rw [queryStringAuthOf, h, Option.getD]
      cases hs : strStartsWith (baseUrlOf c) "https://" with
      | false => rfl
      | true => exact (not_http_and_https hh hs).elim
  · intro b h
    simp [queryStringAuthOf, h]
  · intro hq ep
    simp [requestUrl, hq]

/-- Claim C8 witness: the amended theorem applied at the plaintext
`http://example.com` configuration gives signed-header mode. -/
theorem c8_witness : queryStringAuthOf cfgHttp = false :=
  ((c8_authMode cfgHttp).2.1 rfl (by decide)).mpr (by decide)

/-! ## Claim C3 — Backoff Retrier -/

/-- A throwable that already is an `Error` is stored unchanged by the
retrier's catch. -/
theorem thrown_asError_id {t : Thrown} (h : t.isError = true) : t.asError = t := by
  cases t <;> first | rfl | simp [Thrown.isError] at h

theorem delays_cons (b a j : Nat) :
    b * 2 ^ a :: (List.range j).map (fun i => b * 2 ^ (a + 1 + i))
      = (List.range (j + 1)).map (fun i => b * 2 ^ (a + i)) := by
  rw [List.range_succ_eq_map, List.map_cons, List.map_map]
  have ht : (List.range j).map (fun i => b * 2 ^ (a + 1 + i))
      = (List.range j).map ((fun i => b * 2 ^ (a + i)) ∘ Nat.succ) := by
    refine List.map_congr_left (fun i _ => ?_)
    simp only [Function.comp_apply]
    have hia : a + 1 + i = a + (i + 1) := by omega
    rw [hia]
  rw [ht]
  simp

theorem retryAux_ok (o : Nat → Except Thrown α) (b a : Nat) (v : α) (k : Nat)
    (h : o a = .ok v) : retryAux o b a k = (.ok v, 1, []) := by
  cases k <;> simp [retryAux, h]

theorem retryAux_last_error (o : Nat → Except Thrown α) (b a : Nat) (e : Thrown)
    (h : o a = .error e) : retryAux o b a 0 = (.error e.asError, 1, []) := by
  simp [retryAux, h]

theorem retryAux_step_error (o : Nat → Except Thrown α) (b a k : Nat) (e : Thrown)
    (h : o a = .error e) :
    retryAux o b a (k + 1)
      = ((retryAux o b (a + 1) k).1, (retryAux o b (a + 1) k).2.1 + 1,
          b * 2 ^ a :: (retryAux o b (a + 1) k).2.2) := by
  simp [retryAux, h]

theorem retryAux_calls_le (o : Nat → Except Thrown α) (b : Nat) :
    ∀ (k a : Nat), (retryAux o b a k).2.1 ≤ k + 1 := by
  intro k
  induction k with
  | zero =>
    intro a
    cases h : o a with
    | ok v => rw [retryAux_ok o b a v 0 h]
    | error e => rw [retryAux_last_error o b a e h]
  | succ k ih =>
    intro a
    cases h : o a with
    | ok v =>
      rw [retryAux_ok o b a v (k + 1) h]
      show 1 ≤ k + 1 + 1
      omega
    | error e =>
      rw [retryAux_step_error o b a k e h]
      show (retryAux o b (a + 1) k).2.1 + 1 ≤ k + 1 + 1
      have := ih (a + 1)
      omega

theorem retryAux_success (o : Nat → Except Thrown α) (b : Nat) :
    ∀ (j a k : Nat) (v : α), j ≤ k →
      (∀ i, i < j → ∃ t, o (a + i) = .error t) →
      o (a + j) = .ok v →
      retryAux o b a k = (.ok v, j + 1, (List.range j).map (fun i => b * 2 ^ (a + i))) := by
  intro j
  induction j with
  | zero =>
    intro a k v _ _ hok
    rw [Nat.add_zero] at hok
    rw [retryAux_ok o b a v k hok]
    simp
  | succ j ih =>
    intro a k v hjk hfail hok
    obtain ⟨t0, ht0⟩ := hfail 0 (Nat.succ_pos j)
    rw [Nat.add_zero] at ht0
    cases k with
    | zero => omega
    | succ k =>
      have hrec := ih (a + 1) k v (by omega)
        (fun i hi => by
          have := hfail (i + 1) (by omega)
          rw [show a + (i + 1) = a + 1 + i by omega] at this
          exact this)
        (by rw [show a + 1 + j = a + (j + 1) by omega]; exact hok)
      rw [retryAux_step_error o b a k t0 ht0, hrec]
      dsimp only
      rw [delays_cons]

theorem retryAux_allfail (o : Nat → Except Thrown α) (b : Nat) :
    ∀ (k a : Nat) (ts : Nat → Thrown),
      (∀ i, i ≤ k → o (a + i) = .error (ts (a + i))) →
      retryAux o b a k
        = (.error ((ts (a + k)).asError), k + 1,
            (List.range k).map (fun i => b * 2 ^ (a + i))) := by
  intro k
  induction k with
  | zero =>
    intro a ts h
    have h0 := h 0 (le_refl 0)
    rw [Nat.add_zero] at h0
    rw [Nat.add_zero]
    rw [retryAux_last_error o b a (ts a) h0]
    simp
  | succ k ih =>
    intro a ts h
    have h0 := h 0 (by omega)
    rw [Nat.add_zero] at h0
    have hrec := ih (a + 1) ts (fun i hi => by
      have := h (i + 1) (by omega)
      rw [show a + (i + 1) = a + 1 + i by omega] at this
      exact this)
    rw [show a + 1 + k = a + (k + 1) by omega] at hrec
    rw [retryAux_step_error o b a k (ts a) h0, hrec]
    dsimp only
    rw [delays_cons]

/-- Claim C3: for every operation and every `maxRetries ≥ 0`, the
retrier invokes the operation at most `maxRetries + 1` times; it
returns the first successful result after exactly `j + 1` invocations
when the first `j` attempts fail; before each retry it waits
`baseDelay * 2 ^ attemptIndex` with the index starting at 0; and when
all `maxRetries + 1` attempts fail it re-raises the LAST observed
error unchanged. -/
theorem c3_retryWithBackoff (o : Nat → Except Thrown α) (maxRetries baseDelay : Nat) :
    ((retryWithBackoff o maxRetries baseDelay).2.1 ≤ maxRetries + 1) ∧
    (∀ (j : Nat) (v : α), j ≤ maxRetries →
      (∀ i, i < j → ∃ t, o i = .error t) → o j = .ok v →
      retryWithBackoff o maxRetries baseDelay
        = (.ok v, j + 1, (List.range j).map (fun i => baseDelay * 2 ^ i))) ∧
    (∀ ts : Nat → Thrown, (∀ i, i ≤ maxRetries → o i = .error (ts i)) →
      retryWithBackoff o maxRetries baseDelay
        = (.error ((ts maxRetries).asError), maxRetries + 1,
            (List.range maxRetries).map (fun i => baseDelay * 2 ^ i)) ∧
      ((ts maxRetries).isError = true →
        (retryWithBackoff o maxRetries baseDelay).1 = .error (ts maxRetries))) := by
  refine ⟨retryAux_calls_le o baseDelay maxRetries 0, ?_, ?_⟩
  · intro j v hj hfail hok
    have h := retryAux_success o baseDelay j 0 maxRetries v hj
      (fun i hi => by simpa using hfail i hi) (by simpa using hok)
    simpa [retryWithBackoff] using h
  · intro ts h
    have hall := retryAux_allfail o baseDelay maxRetries 0 ts
      (fun i hi => by simpa using h i hi)
    rw [Nat.zero_add] at hall
    have hall2 : retryWithBackoff o maxRetries baseDelay
        = (.error ((ts maxRetries).asError), maxRetries + 1,
            (List.range maxRetries).map (fun i => baseDelay * 2 ^ i)) := by
      simpa [retryWithBackoff] using hall
    refine ⟨hall2, fun hE => ?_⟩
    rw [hall2, thrown_asError_id hE]

/-- Operation that fails exactly twice, then succeeds with 42. -/
def sampleOutcomes : Nat → Except Thrown Nat := fun i =>
  if i < 2 then .error (.jsError "Error" "Temporary failure") else .ok 42

/-- Operation that always fails, the `i`-th invocation with message
`toString i`. -/
def failingOutcomes : Nat → Except Thrown Nat := fun i =>
  .error (.jsError "Error" (toString i))

/-- Claim C3 witness: the theorem applied at the spec's concrete
scenarios — failing twice then succeeding with `maxRetries = 3,
baseDelay = 10` returns 42 after exactly 3 invocations (delays 10,
20), and an always-failing operation with `maxRetries = 2` re-raises
the 3rd failure's error, not the 1st. -/
theorem c3_witness :
    retryWithBackoff sampleOutcomes 3 10 = (.ok 42, 3, [10, 20]) ∧
    retryWithBackoff failingOutcomes 2 10
      = (.error (.jsError "Error" "2"), 3, [10, 20]) := by
  constructor
  · have h := (c3_retryWithBackoff sampleOutcomes 3 10).2.1 2 42 (by omega)
      (fun i hi => by
        interval_cases i
        · exact ⟨_, rfl⟩
        · exact ⟨_, rfl⟩)
      rfl
    rw [h]
    rfl
  · have h := ((c3_retryWithBackoff failingOutcomes 2 10).2.2
      (fun i => .jsError "Error" (toString i)) (fun i _ => rfl)).1
    rw [h]
    rfl

/-! ## Claim C4 — Paginator -/

theorem pages_cons (fetch : Nat → List α) (start j : Nat) :
    fetch start ++ ((List.range j).map (fun i => fetch (start + 1 + i))).flatten
      = ((List.range (j + 1)).map (fun i => fetch (start + i))).flatten := by
  rw [List.range_succ_eq_map, List.map_cons, List.flatten_cons, List.map_map]
  have ht : (List.range j).map (fun i => fetch (start + 1 + i))
      = (List.range j).map ((fun i => fetch (start + i)) ∘ Nat.succ) := by
    refine List.map_congr_left (fun i _ => ?_)
    simp only [Function.comp_apply]
    have hia : start + 1 + i = start + (i + 1) := by omega
    rw [hia]
  rw [ht]
  simp

theorem fetchPages_short (fetch : Nat → List α) (perPage start fuel : Nat)
    (h : (fetch start).length < perPage) :
    fetchPages fetch perPage start (fuel + 1) = some (fetch start, 1) := by
  simp [fetchPages, h]

theorem fetchPages_step (fetch : Nat → List α) (perPage start fuel : Nat)
    (h : ¬ (fetch start).length < perPage) :
    fetchPages fetch perPage start (fuel + 1)
      = match fetchPages fetch perPage (start + 1) fuel with
        | none => none
        | some (rest, n) => some (fetch start ++ rest, n + 1) := by
  simp [fetchPages, h]

theorem fetchPages_stops (fetch : Nat → List α) (perPage : Nat) :
    ∀ (k start fuel : Nat), k < fuel →
      (∀ i, i < k → perPage ≤ (fetch (start + i)).length) →
      (fetch (start + k)).length < perPage →
      fetchPages fetch perPage start fuel
        = some ((((List.range (k + 1)).map (fun i => fetch (start + i))).flatten), k + 1) := by
  intro k
  induction k with
  | zero =>
    intro start fuel hf _ hshort
    cases fuel with
    | zero => omega
    | succ f =>
      rw [Nat.add_zero] at hshort
      rw [fetchPages_short fetch perPage start f hshort]
      simp [List.range_succ]
  | succ k ih =>
    intro start fuel hf hfull hshort
    cases fuel with
    | zero => omega
    | succ f =>
      have h0 : perPage ≤ (fetch start).length := by simpa using hfull 0 (by omega)
      have hrec := ih (start + 1) f (by omega)
        (fun i hi => by
          have := hfull (i + 1) (by omega)
          rw [show start + (i + 1) = start + 1 + i by omega] at this
          exact this)
        (by rw [show start + 1 + k = start + (k + 1) by omega]; exact hshort)
      rw [fetchPages_step fetch perPage start f (not_lt.mpr h0), hrec]
      dsimp only
      rw [pages_cons]

/-- Listing operation returning pages of sizes 100, 100, 50 (in items,
consecutive naturals). -/
def server250 : Option String → Nat → Nat → List Nat := fun _ _ page =>
  if page = 1 then List.range' 0 100
  else if page = 2 then List.range' 100 100
  else if page = 3 then List.range' 200 50
  else []

/-- Listing operation with a single page of 25 items. -/
def server25 : Nat → Nat → List Nat := fun _ page =>
  if page = 1 then List.range 25 else []

/-- Listing operation with one exactly-full page of 100 items, then
nothing. -/
def serverFull100 : Option String → Nat → Nat → List Nat := fun _ _ page =>
  if page = 1 then List.range 100 else []

set_option maxRecDepth 8000

/-- Claim C4: the pagination loop invokes the listing operation with
page numbers 1, 2, 3, … and stops at the first page whose item count
is strictly below the requested page size, returning all fetched items
in order and having made exactly one call per fetched page; in
particular pages of sizes [100, 100, 50] at page size 100 give all 250
items in order after exactly 3 calls, a single page of 25 items gives
25 items after exactly 1 call, and an exactly-full final page costs
exactly one additional probe call. -/
theorem c4_paginator :
    (∀ (α : Type) (fetch : Nat → List α) (perPage k fuel : Nat), k < fuel →
      (∀ i, i < k → perPage ≤ (fetch (1 + i)).length) →
      (fetch (1 + k)).length < perPage →
      fetchPages fetch perPage 1 fuel
        = some ((((List.range (k + 1)).map (fun i => fetch (1 + i))).flatten), k + 1)) ∧
    ProductsClient.getAll server250 "publish" 100 10 = some (List.range 250, 3) ∧
    ProductsClient.listAll server25 none 10 = some (List.range 25, 1) ∧
    ProductsClient.getAll serverFull100 "publish" 100 10 = some (List.range 100, 2) := by
  refine ⟨?_, by decide, by decide, by decide⟩
  intro α fetch perPage k fuel hf hfull hshort
  exact fetchPages_stops fetch perPage k 1 fuel hf hfull hshort

/-- Claim C4 witness: the theorem's general conjunct applied at the
concrete single-short-page scenario. -/
theorem c4_witness :
    fetchPages (fun p => if p = 1 then List.range 25 else []) 100 1 5
      = some (List.range 25, 1) := by
  have h := c4_paginator.1 Nat (fun p => if p = 1 then List.range 25 else []) 100 0 5
    (by omega) (fun i hi => absurd hi (by omega)) (by decide)
  rw [h]
  rfl

/-! ## Claim C5 — Batch Chunker -/

theorem chunksGo_fuel_irrel :
    ∀ (f1 f2 : Nat) (l : List α), l.length ≤ f1 → l.length ≤ f2 →
      chunksGo f1 l = chunksGo f2 l := by
  intro f1
  induction f1 with
  | zero =>
    intro f2 l h1 _
    have h0 : l = [] := List.eq_nil_of_length_eq_zero (by omega)
    subst h0
    cases f2 <;> rfl
  | succ f ih =>
    intro f2 l h1 h2
    cases l with
    | nil => cases f2 <;> rfl
    | cons x xs =>
      cases f2 with
      | zero => simp at h2
      | succ f2 =>
        simp only [chunksGo]
        congr 1
        apply ih
        · simp only [List.length_drop, List.length_cons]
          simp only [List.length_cons] at h1
          omega
        · simp only [List.length_drop, List.length_cons]
          simp only [List.length_cons] at h2
          omega

theorem chunks100_cons {l : List α} (h : l ≠ []) :
    chunks100 l = l.take 100 :: chunks100 (l.drop 100) := by
  cases l with
  | nil => exact absurd rfl h
  | cons x xs =>
    show chunksGo (x :: xs).length (x :: xs) = _
    simp only [List.length_cons, chunksGo]
    congr 1
    apply chunksGo_fuel_irrel
    · simp only [List.length_drop, List.length_cons]
      omega
    · exact le_refl _

theorem chunksGo_flatten :
    ∀ (fuel : Nat) (l : List α), l.length ≤ fuel → (chunksGo fuel l).flatten = l := by
  intro fuel
  induction fuel with
  | zero =>
    intro l h
    have h0 : l = [] := List.eq_nil_of_length_eq_zero (by omega)
    subst h0
    rfl
  | succ f ih =>
    intro l h
    cases l with
    | nil => rfl
    | cons x xs =>
      simp only [chunksGo, List.flatten_cons]
      rw [ih]
      · exact List.take_append_drop 100 (x :: xs)
      · simp only [List.length_drop, List.length_cons]
        simp only [List.length_cons] at h
        omega

theorem chunks100_flatten (l : List α) : (chunks100 l).flatten = l :=
  chunksGo_flatten l.length l (le_refl _)

theorem chunksGo_mem_le :
    ∀ (fuel : Nat) (l c : List α), c ∈ chunksGo fuel l → c.length ≤ 100 := by
  intro fuel
  induction fuel with
  | zero =>
    intro l c hc
    cases l <;> simp [chunksGo] at hc
  | succ f ih =>
    intro l c hc
    cases l with
    | nil => simp [chunksGo] at hc
    | cons x xs =>
      simp only [chunksGo, List.mem_cons] at hc
      rcases hc with rfl | hc
      · rw [List.length_take]
        exact min_le_left _ _
      · exact ih _ _ hc

theorem chunks100_mem_le {l c : List α} (h : c ∈ chunks100 l) : c.length ≤ 100 :=
  chunksGo_mem_le l.length l c h

theorem chunks100_lengths_250 (l : List α) (h : l.length = 250) :
    (chunks100 l).map List.length = [100, 100, 50] := by
  have h1 : l ≠ [] := by
    intro he
    rw [he] at h
    simp at h
  rw [chunks100_cons h1]
  have hd1 : (l.drop 100).length = 150 := by simp [List.length_drop, h]
  have h2 : l.drop 100 ≠ [] := by
    intro he
    rw [he] at hd1
    simp at hd1
  rw [chunks100_cons h2]
  have hd2 : ((l.drop 100).drop 100).length = 50 := by simp [List.length_drop, h]
  have h3 : (l.drop 100).drop 100 ≠ [] := by
    intro he
    rw [he] at hd2
    simp at hd2
  rw [chunks100_cons h3]
  have hd3 : (((l.drop 100).drop 100).drop 100).length = 0 := by
    simp [List.length_drop, h]
  have h4 : ((l.drop 100).drop 100).drop 100 = [] := List.eq_nil_of_length_eq_zero hd3
  rw [h4]
  simp [chunks100, chunksGo, List.length_take, h, hd1, hd2]

/-- Claim C5: `batchUpdate` partitions its input into consecutive
chunks of at most 100 items preserving input order (flattening the
chunks gives back the input; a 250-item list yields chunk lengths
[100, 100, 50]), submits the chunks one at a time in order,
concatenates the per-chunk results in chunk order, and performs no
submission and returns an empty result on empty input. -/
theorem c5_batchUpdate {β : Type} (submit : List BatchWireItem → Option (List β))
    (updates : List StockUpdate) :
    (updates = [] → ProductsClient.batchUpdate submit updates = ([], [])) ∧
    (updates ≠ [] →
      (ProductsClient.batchUpdate submit updates).2
          = (chunks100 updates).map (fun b => b.map toWireItem) ∧
      (chunks100 updates).flatten = updates ∧
      (∀ ch ∈ chunks100 updates, ch.length ≤ 100) ∧
      (ProductsClient.batchUpdate submit updates).1
          = ((chunks100 updates).map
              (fun b => (submit (b.map toWireItem)).getD [])).flatten) ∧
    (updates.length = 250 → (chunks100 updates).map List.length = [100, 100, 50]) := by
  refine ⟨?_, ?_, chunks100_lengths_250 updates⟩
  · rintro rfl
    rfl
  · intro h
    have hne : updates.isEmpty = false := by
      cases updates with
      | nil => exact absurd rfl h
      | cons x xs => rfl
    refine ⟨?_, chunks100_flatten updates, fun ch hch => chunks100_mem_le hch, ?_⟩
    · simp [ProductsClient.batchUpdate, hne]
    · simp [ProductsClient.batchUpdate, hne, List.map_map]
      rfl

/-- Concrete three-item update list. -/
def updates3 : List StockUpdate := [⟨1, 5⟩, ⟨2, 6⟩, ⟨3, 7⟩]

/-- Submission model echoing back the ids of the submitted items. -/
def submitIds : List BatchWireItem → Option (List Int) := fun w =>
  some (w.map (fun i => i.id))

/-- Claim C5 witness: the theorem applied at a concrete nonempty
input. -/
theorem c5_witness :
    (ProductsClient.batchUpdate submitIds updates3).2
        = (chunks100 updates3).map (fun b => b.map toWireItem) ∧
    (chunks100 updates3).flatten = updates3 :=
  ⟨((c5_batchUpdate submitIds updates3).2.1 (by decide)).1,
   ((c5_batchUpdate submitIds updates3).2.1 (by decide)).2.1⟩

/-! ## Claim C10 — batchUpdate forces manage_stock -/

theorem flatten_map_map {α β : Type} (f : α → β) :
    ∀ L : List (List α), (L.map (List.map f)).flatten = L.flatten.map f := by
  intro L
  induction L with
  | nil => rfl
  | cons x xs ih => simp only [List.map_cons, List.flatten_cons, List.map_append, ih]

/-- Claim C10: for every nonempty input list, what goes on the wire is
not the caller's items verbatim — flattening the submitted payloads
gives exactly the input mapped to records of the input item's `id` and
`stock_quantity` with `manage_stock` forced to `true`, so every
submitted item has stock management enabled. -/
theorem c10_batchUpdate {β : Type} (submit : List BatchWireItem → Option (List β))
    (updates : List StockUpdate) (h : updates ≠ []) :
    ((ProductsClient.batchUpdate submit updates).2).flatten
        = updates.map (fun u =>
            { id := u.id, stock_quantity := u.stock_quantity, manage_stock := true }) ∧
    ∀ item ∈ ((ProductsClient.batchUpdate submit updates).2).flatten,
      item.manage_stock = true := by
  have hne : updates.isEmpty = false := by
    cases updates with
    | nil => exact absurd rfl h
    | cons x xs => rfl
  have h2 : (ProductsClient.batchUpdate submit updates).2
      = (chunks100 updates).map (fun b => b.map toWireItem) := by
    simp [ProductsClient.batchUpdate, hne]
  constructor
  · rw [h2, flatten_map_map, chunks100_flatten]
    rfl
  · intro item hitem
    rw [h2, flatten_map_map, chunks100_flatten] at hitem
    simp only [List.mem_map] at hitem
    obtain ⟨u, _, rfl⟩ := hitem
    rfl

/-- Claim C10 witness: the theorem applied at a concrete nonempty
input. -/
theorem c10_witness :
    ((ProductsClient.batchUpdate submitIds updates3).2).flatten
      = updates3.map (fun u =>
          { id := u.id, stock_quantity := u.stock_quantity, manage_stock := true }) :=
  (c10_batchUpdate submitIds updates3 (by decide)).1
